import Mathlib

/-
Verification of the indicator transform and retrieval pipeline of the
Econ101DashBoard repository (src/app.py).

The embedding models the three core functions of app.py:
  * `fred_get_series`  — parsing of a fetch response into a raw series
    (the HTTP layer is represented by its observable inputs: status code,
    observation records, and the realtime_end metadata field);
  * `compute_transform` — the transform engine (sort a working copy by
    date, replace the value column per transform kind, drop NaN rows);
  * `pct_change_latest` — the percent-change-over-N-periods helper.

Numeric values are modelled by `FVal`, rationals extended with the IEEE
float special values `+inf`, `-inf` and `NaN`, because the pandas
operations in the source (numpy float64 arithmetic) produce infinities on
division by zero and NaN on 0/0 or missing lookback, and `dropna` removes
only NaN.  Plain Python float division (used in `pct_change_latest`)
raises `ZeroDivisionError` on a zero denominator, which is modelled by
`Except`.  `DataFrame.sort_values("date")` is modelled as a stable sort by
date (`List.insertionSort`).
-/

namespace Econ101

/-- Model of a pandas/numpy float64 cell: a finite rational, an infinity,
or NaN. -/
inductive FVal where
  | num (q : ℚ)
  | pinf
  | ninf
  | nan
deriving DecidableEq, Repr

namespace FVal

/-- True exactly on NaN; this is what `DataFrame.dropna` tests. -/
def isNan : FVal → Bool
  | nan => true
  | _ => false

/-- True exactly on finite numbers (not NaN and not an infinity). -/
def isFinite : FVal → Bool
  | num _ => true
  | _ => false

/-- The rational carried by a finite value (0 on the special values). -/
def toQ : FVal → ℚ
  | num q => q
  | _ => 0

/-- numpy float64 division: x/0 gives a signed infinity for x nonzero,
0/0 gives NaN, NaN propagates. -/
def div : FVal → FVal → FVal
  | nan, _ => nan
  | num a, num b =>
      if b = 0 then (if a > 0 then pinf else if a < 0 then ninf else nan)
      else num (a / b)
  | num _, nan => nan
  | num _, pinf => num 0
  | num _, ninf => num 0
  | pinf, nan => nan
  | pinf, num b => if b < 0 then ninf else pinf
  | ninf, nan => nan
  | ninf, num b => if b < 0 then pinf else ninf
  | _, pinf => nan
  | _, ninf => nan

/-- numpy float64 subtraction on the extended values. -/
def sub : FVal → FVal → FVal
  | nan, _ => nan
  | num a, num b => num (a - b)
  | num _, nan => nan
  | num _, pinf => ninf
  | num _, ninf => pinf
  | pinf, nan => nan
  | pinf, num _ => pinf
  | pinf, pinf => nan
  | pinf, ninf => pinf
  | ninf, nan => nan
  | ninf, num _ => ninf
  | ninf, pinf => ninf
  | ninf, ninf => nan

/-- numpy float64 multiplication on the extended values. -/
def mul : FVal → FVal → FVal
  | nan, _ => nan
  | num a, num b => num (a * b)
  | num _, nan => nan
  | num a, pinf => if a > 0 then pinf else if a < 0 then ninf else nan
  | num a, ninf => if a > 0 then ninf else if a < 0 then pinf else nan
  | pinf, nan => nan
  | pinf, num b => if b > 0 then pinf else if b < 0 then ninf else nan
  | pinf, pinf => pinf
  | pinf, ninf => ninf
  | ninf, nan => nan
  | ninf, num b => if b > 0 then ninf else if b < 0 then pinf else nan
  | ninf, pinf => ninf
  | ninf, ninf => pinf

end FVal

/-- One row of the canonical series frame: a calendar date (encoded as an
integer day ordinal) and a float value. -/
structure Obs where
  date : Int
  value : FVal
deriving DecidableEq, Repr

/-- The canonical series frame returned by `fred_get_series` and
`compute_transform`: the ordered rows plus the constant `last_updated`
metadata column. -/
structure Frame where
  points : List Obs
  lastUpdated : String
deriving DecidableEq, Repr

/-- Row order used by `sort_values("date")`. -/
def dateLe (a b : Obs) : Prop := a.date ≤ b.date

instance : DecidableRel dateLe := fun a b => Int.decLe a.date b.date

instance : IsTotal Obs dateLe := ⟨fun a b => Int.le_total a.date b.date⟩

instance : IsTrans Obs dateLe := ⟨fun _ _ _ h1 h2 => le_trans h1 h2⟩

/-- Model of `df.sort_values("date")`: a stable sort of the rows by date. -/
def sortByDate (pts : List Obs) : List Obs := List.insertionSort dateLe pts

/-- One record of the `observations` array of the FRED response body, after
`pd.to_numeric(..., errors="coerce")`: `value` is `some q` when the value
string parsed as a number, `none` when it did not (coerced to NaN). -/
structure FredRec where
  date : Int
  value : Option ℚ
deriving DecidableEq, Repr

/-- Embedding of `fred_get_series` (src/app.py lines 66-92), starting from
the observable response: HTTP status, observation records, and the
`realtime_end` metadata.  A non-200 status returns None; an empty
observations array returns None; otherwise rows whose value failed to
parse are dropped (`dropna(subset=["value"])`) and the surviving rows are
kept in response order with the metadata attached. -/
def fred_get_series (status : Nat) (observations : List FredRec)
    (realtimeEnd : String) : Option Frame :=
  if status ≠ 200 then none
  else if observations = [] then none
  else some
    { points := observations.filterMap
        (fun r => r.value.map (fun v => { date := r.date, value := FVal.num v }))
      lastUpdated := realtimeEnd }

/-- Model of `Series.pct_change(k)`: position t gets value[t]/value[t-k] − 1,
and the first k positions get NaN (no prior reference). -/
def pctChange (k : Nat) (xs : List FVal) : List FVal :=
  (List.range xs.length).map (fun t =>
    if t < k then FVal.nan
    else FVal.sub (FVal.div (xs.getD t FVal.nan) (xs.getD (t - k) FVal.nan))
      (FVal.num 1))

/-- Model of `Series.diff(k)`: position t gets value[t] − value[t-k], and
the first k positions get NaN. -/
def diffChange (k : Nat) (xs : List FVal) : List FVal :=
  (List.range xs.length).map (fun t =>
    if t < k then FVal.nan
    else FVal.sub (xs.getD t FVal.nan) (xs.getD (t - k) FVal.nan))

/-- The value-column update of `compute_transform`, one branch per
transform kind; both the `"level"` branch and the final `else` branch of
the source leave the column unchanged. -/
def transformVals (transform : String) (vals : List FVal) : List FVal :=
  if transform = "yoy" then
    (pctChange 12 vals).map (fun v => FVal.mul v (FVal.num 100))
  else if transform = "mom_level_k" then
    (diffChange 1 vals).map (fun v => FVal.div v (FVal.num 1000))
  else if transform = "level_thous" then
    vals.map (fun v => FVal.div v (FVal.num 1000))
  else if transform = "level_millions" then
    vals.map (fun v => FVal.div v (FVal.num 1000000))
  else vals

/-- Positional assignment of a new value column to the rows
(`s["value"] = ...`): row i keeps its date and receives the i-th new
value. -/
def setVals : List Obs → List FVal → List Obs
  | o :: os, v :: vs => { date := o.date, value := v } :: setVals os vs
  | _, _ => []

/-- Embedding of `compute_transform` (src/app.py lines 141-159): None
passes through; otherwise a working copy is sorted by date, the value
column is replaced per the transform kind, and rows whose value is NaN are
dropped (`dropna(subset=["value"])`). -/
def compute_transform (df : Option Frame) (transform : String) : Option Frame :=
  match df with
  | none => none
  | some f =>
    let s := sortByDate f.points
    let s2 := setVals s (transformVals transform (s.map (fun o => o.value)))
    some { points := s2.filter (fun o => !o.value.isNan)
           lastUpdated := f.lastUpdated }

/-- Python float division as used in `pct_change_latest`: raises
`ZeroDivisionError` when the denominator is (numeric) zero, otherwise
agrees with float64 division. -/
def pydiv (a b : FVal) : Except Unit FVal :=
  if b = FVal.num 0 then Except.error () else Except.ok (FVal.div a b)

/-- Embedding of `pct_change_latest` (src/app.py lines 95-99): None on a
missing, empty, or too-short series (length ≤ periods); otherwise takes
the last periods+1 values and returns (last / first − 1) × 100, the
division being Python float division. -/
def pct_change_latest (df : Option Frame) (periods : Nat) :
    Except Unit (Option FVal) :=
  match df with
  | none => Except.ok none
  | some f =>
    if f.points.length ≤ periods then Except.ok none
    else
      let vals := (f.points.map (fun o => o.value)).drop
        (f.points.length - (periods + 1))
      match pydiv (vals.getD periods FVal.nan) (vals.getD 0 FVal.nan) with
      | Except.error e => Except.error e
      | Except.ok q =>
        Except.ok (some (FVal.mul (FVal.sub q (FVal.num 1)) (FVal.num 100)))

/-- The explicit "no data" state of the data model in the spec: either the
fetch-failure value None or a frame with an empty point list. -/
def isNoData : Option Frame → Bool
  | none => true
  | some f => f.points.isEmpty

/-- Default row used with `List.getD`. -/
def dObs : Obs := { date := 0, value := FVal.nan }

/-- The transform-kind strings of the indicator registry. -/
def kindYoy : String := "yoy"

def kindMom : String := "mom_level_k"

def kindThous : String := "level_thous"

def kindMillions : String := "level_millions"

def kindLevel : String := "level"

/-- One cache slot of the TTL cache model: the (series id, frequency)
key, the cached fetch result, and the insertion time in seconds. -/
structure CacheEntry where
  key : String × String
  result : Option Frame
  insertedAt : Nat
deriving DecidableEq, Repr

/-- The cache time-to-live of `st.cache_data(ttl=60)`, in seconds. -/
def cacheTTL : Nat := 60

/-- Lookup of a key in the cache (most recent entry first). -/
def lookupCache (c : List CacheEntry) (k : String × String) : Option CacheEntry :=
  c.find? (fun e => decide (e.key = k))

/-- The observable outcome of one cached fetch call: the value returned
to the caller, the cache afterwards, and whether a network request was
issued. -/
structure FetchOutcome where
  result : Option Frame
  cache : List CacheEntry
  networkCall : Bool
deriving DecidableEq, Repr

/-- Modelled from the spec: the read-through TTL cache that the
`st.cache_data(ttl=60)` decorator wraps around `fred_get_series`
(src/app.py line 65).  The caching machinery of the decorator is Streamlit
library code not present in the repository, so its semantics are taken
from the spec: a cached entry younger than the TTL is served without a
network round-trip; a miss or an expired entry issues the network fetch
(represented by its would-be result `networkResult`) and stores the
fresh result. -/
def cachedFetch (c : List CacheEntry) (k : String × String) (now : Nat)
    (networkResult : Option Frame) : FetchOutcome :=
  match lookupCache c k with
  | some e =>
    if now < e.insertedAt + cacheTTL then
      { result := e.result, cache := c, networkCall := false }
    else
      { result := networkResult
        cache := { key := k, result := networkResult, insertedAt := now } :: c
        networkCall := true }
  | none =>
    { result := networkResult
      cache := { key := k, result := networkResult, insertedAt := now } :: c
      networkCall := true }

/-- Modelled from the spec: the explicit "clear all cached series"
operation (`st.cache_data.clear()` behind the Force refresh button). -/
def clearCache (_ : List CacheEntry) : List CacheEntry := []

/-- The unregistered transform name used in the C10 witness. -/
def kindOther : String := "zzz"

/-- A two-row unsorted frame used in the C10 and C9 witnesses. -/
def w10Frame : Frame :=
  { points := [{ date := 2, value := FVal.num 7 }, { date := 1, value := FVal.num 3 }]
    lastUpdated := "m" }

/-- The output frame of the C2 witness. -/
def w2Out : Frame :=
  { points := [{ date := 1, value := FVal.num 3 }], lastUpdated := "m" }

/-- The 13-point frame refuting C2 as stated: the value 12 samples before
the last one is 0, so the year-over-year ratio at the last point divides
by zero. -/
def c2Frame : Frame :=
  { points := [{ date := 0, value := FVal.num 0 }, { date := 1, value := FVal.num 1 },
      { date := 2, value := FVal.num 2 }, { date := 3, value := FVal.num 3 },
      { date := 4, value := FVal.num 4 }, { date := 5, value := FVal.num 5 },
      { date := 6, value := FVal.num 6 }, { date := 7, value := FVal.num 7 },
      { date := 8, value := FVal.num 8 }, { date := 9, value := FVal.num 9 },
      { date := 10, value := FVal.num 10 }, { date := 11, value := FVal.num 11 },
      { date := 12, value := FVal.num 5 }]
    lastUpdated := "m" }

/-- The one-point frame of the C5 witness. -/
def w5Frame : Frame :=
  { points := [{ date := 1, value := FVal.num 2 }], lastUpdated := "u" }

/-- The 13-point monthly frame of the C1 witness: the last value 110 is
10 percent above the value 100 from 12 samples earlier. -/
def w1Frame : Frame :=
  { points := [{ date := 0, value := FVal.num 100 }, { date := 1, value := FVal.num 101 },
      { date := 2, value := FVal.num 102 }, { date := 3, value := FVal.num 103 },
      { date := 4, value := FVal.num 104 }, { date := 5, value := FVal.num 105 },
      { date := 6, value := FVal.num 106 }, { date := 7, value := FVal.num 107 },
      { date := 8, value := FVal.num 108 }, { date := 9, value := FVal.num 109 },
      { date := 10, value := FVal.num 110 }, { date := 11, value := FVal.num 111 },
      { date := 12, value := FVal.num 110 }]
    lastUpdated := "m" }

/-- The two-point frame of the C4 witness. -/
def w4Frame : Frame :=
  { points := [{ date := 1, value := FVal.num 100 }, { date := 2, value := FVal.num 110 }]
    lastUpdated := "m" }

/-- The ten-record response body of the C8 witness: nine numeric values
and one record whose value failed to parse. -/
def w8Obs : List FredRec :=
  [{ date := 1, value := some 1 }, { date := 2, value := some 2 },
   { date := 3, value := some 3 }, { date := 4, value := some 4 },
   { date := 5, value := none }, { date := 6, value := some 6 },
   { date := 7, value := some 7 }, { date := 8, value := some 8 },
   { date := 9, value := some 9 }, { date := 10, value := some 10 }]

/-- The metadata string of the C8 witness. -/
def w8Meta : String := "rt"

/-- The cache key of the C9 witness. -/
def w9Key : String × String := ("CPIAUCSL", "m")

/- ------------------------------------------------------------------ -/
/- Helper lemmas about the embedding                                   -/
/- ------------------------------------------------------------------ -/

theorem setVals_nil (vals : List FVal) : setVals [] vals = [] := by
  cases vals <;> rfl

theorem setVals_cons_nil (o : Obs) (os : List Obs) : setVals (o :: os) [] = [] := rfl

theorem length_setVals : ∀ (pts : List Obs) (vals : List FVal),
    (setVals pts vals).length = min pts.length vals.length
  | [], vals => by simp [setVals_nil]
  | _ :: _, [] => by simp [setVals]
  | o :: os, v :: vs => by
    simp [setVals, length_setVals os vs, Nat.succ_min_succ]

theorem setVals_self : ∀ (pts : List Obs),
    setVals pts (pts.map (fun o => o.value)) = pts
  | [] => rfl
  | o :: os => by simp [setVals, setVals_self os]

theorem value_mem_of_mem_setVals : ∀ (pts : List Obs) (vals : List FVal) (o : Obs),
    o ∈ setVals pts vals → o.value ∈ vals
  | p :: ps, v :: vs, o, h => by
    rw [setVals] at h
    rcases List.mem_cons.mp h with h | h
    · subst h; exact List.mem_cons_self _ _
    · exact List.mem_cons_of_mem _ (value_mem_of_mem_setVals ps vs o h)
  | [], vals, o, h => by rw [setVals_nil] at h; cases h
  | _ :: _, [], o, h => by rw [setVals_cons_nil] at h; cases h

theorem date_mem_of_mem_setVals : ∀ (pts : List Obs) (vals : List FVal) (o : Obs),
    o ∈ setVals pts vals → ∃ p ∈ pts, o.date = p.date
  | p :: ps, v :: vs, o, h => by
    rw [setVals] at h
    rcases List.mem_cons.mp h with h | h
    · subst h; exact ⟨p, List.mem_cons_self _ _, rfl⟩
    · obtain ⟨q, hq, hd⟩ := date_mem_of_mem_setVals ps vs o h
      exact ⟨q, List.mem_cons_of_mem _ hq, hd⟩
  | [], vals, o, h => by rw [setVals_nil] at h; cases h
  | _ :: _, [], o, h => by rw [setVals_cons_nil] at h; cases h

theorem pairwise_setVals : ∀ (pts : List Obs) (vals : List FVal),
    pts.Pairwise dateLe → (setVals pts vals).Pairwise dateLe
  | [], vals, _ => by rw [setVals_nil]; exact List.Pairwise.nil
  | _ :: _, [], _ => by rw [setVals_cons_nil]; exact List.Pairwise.nil
  | p :: ps, v :: vs, h => by
    rw [List.pairwise_cons] at h
    rw [setVals, List.pairwise_cons]
    refine ⟨fun b hb => ?_, pairwise_setVals ps vs h.2⟩
    obtain ⟨q, hq, hd⟩ := date_mem_of_mem_setVals ps vs b hb
    show Obs.date _ ≤ b.date
    rw [hd]
    exact h.1 q hq

theorem getD_setVals : ∀ (pts : List Obs) (vals : List FVal) (j : Nat) (dv : FVal),
    j < pts.length → j < vals.length →
    (setVals pts vals).getD j dObs =
      { date := (pts.getD j dObs).date, value := vals.getD j dv }
  | p :: ps, v :: vs, 0, dv, _, _ => rfl
  | p :: ps, v :: vs, j + 1, dv, h1, h2 => by
    rw [setVals, List.getD_cons_succ, List.getD_cons_succ, List.getD_cons_succ]
    exact getD_setVals ps vs j dv (by simpa using h1) (by simpa using h2)
  | [], vals, j, dv, h1, _ => by simp at h1
  | _ :: _, [], j, dv, _, h2 => by simp at h2

theorem setVals_append : ∀ (as : List Obs) (cs : List FVal) (bs : List Obs) (ds : List FVal),
    as.length = cs.length →
    setVals (as ++ bs) (cs ++ ds) = setVals as cs ++ setVals bs ds
  | [], [], bs, ds, _ => by simp [setVals_nil]
  | a :: as, c :: cs, bs, ds, h => by
    have ih := setVals_append as cs bs ds (by simpa using h)
    show { date := a.date, value := c } :: setVals (as ++ bs) (cs ++ ds) =
      { date := a.date, value := c } :: (setVals as cs ++ setVals bs ds)
    rw [ih]
  | [], _ :: _, _, _, h => by simp at h
  | _ :: _, [], _, _, h => by simp at h

theorem length_pctChange (k : Nat) (xs : List FVal) :
    (pctChange k xs).length = xs.length := by
  simp [pctChange]

theorem length_diffChange (k : Nat) (xs : List FVal) :
    (diffChange k xs).length = xs.length := by
  simp [diffChange]

theorem getD_pctChange (k : Nat) (xs : List FVal) (t : Nat) (d : FVal)
    (h : t < xs.length) :
    (pctChange k xs).getD t d =
      if t < k then FVal.nan
      else FVal.sub (FVal.div (xs.getD t FVal.nan) (xs.getD (t - k) FVal.nan))
        (FVal.num 1) := by
  have h2 : t < (pctChange k xs).length := by rwa [length_pctChange]
  rw [List.getD_eq_getElem _ _ h2]
  simp only [pctChange, List.getElem_map, List.getElem_range]

theorem mem_pctChange (k : Nat) (xs : List FVal) (v : FVal)
    (h : v ∈ pctChange k xs) :
    ∃ t < xs.length, v = if t < k then FVal.nan
      else FVal.sub (FVal.div (xs.getD t FVal.nan) (xs.getD (t - k) FVal.nan))
        (FVal.num 1) := by
  unfold pctChange at h
  obtain ⟨t, ht, hv⟩ := List.mem_map.mp h
  exact ⟨t, List.mem_range.mp ht, hv.symm⟩

theorem transformVals_yoy (vals : List FVal) :
    transformVals kindYoy vals =
      (pctChange 12 vals).map (fun v => FVal.mul v (FVal.num 100)) := rfl

theorem transformVals_level (vals : List FVal) :
    transformVals kindLevel vals = vals := rfl

theorem transformVals_of_ne (t : String) (vals : List FVal)
    (h1 : t ≠ kindYoy) (h2 : t ≠ kindMom) (h3 : t ≠ kindThous)
    (h4 : t ≠ kindMillions) :
    transformVals t vals = vals := by
  simp only [kindYoy] at h1
  simp only [kindMom] at h2
  simp only [kindThous] at h3
  simp only [kindMillions] at h4
  unfold transformVals
  rw [if_neg h1, if_neg h2, if_neg h3, if_neg h4]

theorem length_transformVals (t : String) (vals : List FVal) :
    (transformVals t vals).length = vals.length := by
  unfold transformVals
  split
  · simp [length_pctChange]
  · split
    · simp [length_diffChange]
    · split
      · simp
      · split
        · simp
        · rfl

theorem compute_transform_some (f : Frame) (t : String) :
    compute_transform (some f) t =
      some { points := (setVals (sortByDate f.points)
              (transformVals t ((sortByDate f.points).map (fun o => o.value)))).filter
                (fun o => !o.value.isNan)
             lastUpdated := f.lastUpdated } := rfl

theorem sortByDate_sorted (pts : List Obs) :
    List.Sorted dateLe (sortByDate pts) :=
  List.sorted_insertionSort dateLe pts

theorem sortByDate_eq_self (pts : List Obs) (h : List.Sorted dateLe pts) :
    sortByDate pts = pts :=
  h.insertionSort_eq

theorem length_sortByDate (pts : List Obs) :
    (sortByDate pts).length = pts.length :=
  List.length_insertionSort dateLe pts

theorem mem_sortByDate (pts : List Obs) (o : Obs) :
    o ∈ sortByDate pts ↔ o ∈ pts :=
  List.mem_insertionSort dateLe

/- ------------------------------------------------------------------ -/
/- Claim theorems                                                      -/
/- ------------------------------------------------------------------ -/

/-- C3: applying the transform engine to a fetch result in the explicit
"no data" state (the None returned on failure or empty observations, or a
frame whose point list is empty) returns the "no data" state again, for
every transform kind.  The embedding is a total function, so in
particular no error is raised. -/
theorem noData_passthrough (df : Option Frame) (t : String)
    (h : isNoData df = true) : isNoData (compute_transform df t) = true := by
  cases df with
  | none => rfl
  | some f =>
    have hp : f.points = [] := List.isEmpty_iff.mp h
    rw [compute_transform_some]
    simp [isNoData, hp, sortByDate, List.insertionSort, setVals_nil]

/-- Witness for C3 at concrete inputs: both "no data" shapes pass
through for a sample transform kind. -/
theorem noData_passthrough_witness :
    isNoData (compute_transform none kindYoy) = true ∧
      isNoData (compute_transform (some { points := [], lastUpdated := "m" })
        kindLevel) = true :=
  ⟨noData_passthrough none kindYoy rfl,
    noData_passthrough (some { points := [], lastUpdated := "m" }) kindLevel rfl⟩

/-- C6: the level transform is an identity up to the defensive
sort and NaN-row drop, and applying it a second time to its own output
changes nothing: transform(transform(s, level), level) =
transform(s, level). -/
theorem level_transform_idempotent (df : Option Frame) :
    compute_transform (compute_transform df kindLevel) kindLevel =
      compute_transform df kindLevel := by
  cases df with
  | none => rfl
  | some f =>
    have h1 : compute_transform (some f) kindLevel =
        some { points := (sortByDate f.points).filter (fun o => !o.value.isNan)
               lastUpdated := f.lastUpdated } := by
      rw [compute_transform_some, transformVals_level, setVals_self]
    rw [h1, compute_transform_some, transformVals_level, setVals_self]
    have hs : List.Sorted dateLe
        ((sortByDate f.points).filter (fun o => !o.value.isNan)) :=
      (sortByDate_sorted f.points).filter _
    rw [sortByDate_eq_self _ hs, List.filter_filter]
    simp

/-- C7: for every input frame, sorted or not, and every transform kind,
the output of the engine exists, its points are ordered ascending by
timestamp, and the metadata field is carried through unchanged.  The
embedding is a pure function of its argument mirroring the
`df.copy()`, so the input frame is never mutated. -/
theorem transform_output_sorted (f : Frame) (t : String) :
    ∃ out, compute_transform (some f) t = some out ∧
      List.Sorted dateLe out.points ∧ out.lastUpdated = f.lastUpdated :=
  ⟨_, compute_transform_some f t,
    (pairwise_setVals _ _ (sortByDate_sorted f.points)).filter _, rfl⟩

/-- C10: a transform name outside the five known kinds falls into the
final `else: pass` branch of the source: the engine neither raises nor returns
None, and produces exactly what the level transform would. -/
theorem unknown_kind_behaves_as_level (f : Frame) (t : String)
    (h1 : t ≠ kindYoy) (h2 : t ≠ kindMom) (h3 : t ≠ kindThous)
    (h4 : t ≠ kindMillions) (_h5 : t ≠ kindLevel) :
    compute_transform (some f) t = compute_transform (some f) kindLevel ∧
      compute_transform (some f) t ≠ none := by
  refine ⟨?_, ?_⟩
  · rw [compute_transform_some, compute_transform_some,
      transformVals_of_ne t _ h1 h2 h3 h4, transformVals_level]
  · rw [compute_transform_some]
    simp

/-- Witness for C10 at a concrete frame and a concrete unknown kind. -/
theorem unknown_kind_behaves_as_level_witness :
    compute_transform (some w10Frame) kindOther =
        compute_transform (some w10Frame) kindLevel ∧
      compute_transform (some w10Frame) kindOther ≠ none :=
  unknown_kind_behaves_as_level w10Frame kindOther (by decide) (by decide)
    (by decide) (by decide) (by decide)

/-- C2 (amended): every point of the transform engine output has a
non-NaN value — `dropna` removes exactly the rows whose transformed value
is NaN (undefined lookback or 0/0); it does not remove infinite values. -/
theorem output_values_never_nan (f : Frame) (t : String) (out : Frame)
    (h : compute_transform (some f) t = some out) :
    out.points.all (fun o => !o.value.isNan) = true := by
  rw [compute_transform_some] at h
  rw [← Option.some.inj h, List.all_eq_true]
  intro o ho
  exact (List.mem_filter.mp ho).2

/-- Witness for the amended C2 at a concrete frame. -/
theorem output_values_never_nan_witness :
    w2Out.points.all (fun o => !o.value.isNan) = true :=
  output_values_never_nan w2Out kindLevel w2Out (by decide)

/-- C2 counterexample: on `c2Frame` the year-over-year transform emits a
point whose value is +inf (5/0 − 1 times 100), a non-finite value, so the
claim that every output point is finite is false: `dropna` drops NaN but
not infinities. -/
theorem yoy_emits_infinite_value :
    compute_transform (some c2Frame) kindYoy =
        some { points := [{ date := 12, value := FVal.pinf }], lastUpdated := "m" } ∧
      FVal.pinf.isFinite = false := by
  decide

/-- C5: a series shorter than 13 points transformed with year-over-year
yields an empty derived series: every position lacks the 12-sample
lookback, so every transformed value is NaN and is dropped. -/
theorem yoy_short_series_empty (f : Frame) (h : f.points.length < 13) :
    compute_transform (some f) kindYoy =
      some { points := [], lastUpdated := f.lastUpdated } := by
  rw [compute_transform_some, transformVals_yoy]
  have hall : ∀ o ∈ setVals (sortByDate f.points)
      ((pctChange 12 ((sortByDate f.points).map (fun o => o.value))).map
        (fun v => FVal.mul v (FVal.num 100))), o.value.isNan = true := by
    intro o ho
    have hv := value_mem_of_mem_setVals _ _ o ho
    obtain ⟨w, hw, hvw⟩ := List.mem_map.mp hv
    obtain ⟨t, ht, hwt⟩ := mem_pctChange 12 _ w hw
    rw [List.length_map, length_sortByDate] at ht
    have ht12 : t < 12 := by omega
    rw [if_pos ht12] at hwt
    rw [← hvw, hwt]
    rfl
  have hnil : (setVals (sortByDate f.points)
      ((pctChange 12 ((sortByDate f.points).map (fun o => o.value))).map
        (fun v => FVal.mul v (FVal.num 100)))).filter (fun o => !o.value.isNan) = [] := by
    rw [List.filter_eq_nil_iff]
    intro o ho
    simp [hall o ho]
  rw [hnil]

/-- Witness for C5 at a concrete one-point frame. -/
theorem yoy_short_series_empty_witness :
    compute_transform (some w5Frame) kindYoy =
      some { points := [], lastUpdated := "u" } :=
  yoy_short_series_empty w5Frame (by decide)

theorem FVal.eq_num_toQ : ∀ (v : FVal), v.isFinite = true → v = FVal.num v.toQ
  | FVal.num _, _ => rfl
  | FVal.pinf, h => by simp [FVal.isFinite] at h
  | FVal.ninf, h => by simp [FVal.isFinite] at h
  | FVal.nan, h => by simp [FVal.isFinite] at h

theorem setVals_nil_right : ∀ (pts : List Obs), setVals pts [] = []
  | [] => rfl
  | _ :: _ => rfl

theorem FVal.div_num (a b : ℚ) (hb : b ≠ 0) :
    FVal.div (FVal.num a) (FVal.num b) = FVal.num (a / b) := by
  simp [FVal.div, hb]

theorem getD_drop {α : Type} (l : List α) (k j : Nat) (d : α)
    (h : k + j < l.length) :
    (l.drop k).getD j d = l.getD (k + j) d := by
  rw [List.getD_eq_getElem _ _ (by rw [List.length_drop]; omega),
    List.getD_eq_getElem _ _ h, List.getElem_drop]

theorem getD_map_mul100 (l : List FVal) (t : Nat) (h : t < l.length) :
    (l.map (fun v => FVal.mul v (FVal.num 100))).getD t FVal.nan =
      FVal.mul (l.getD t FVal.nan) (FVal.num 100) := by
  rw [List.getD_eq_getElem _ _ (by simpa using h), List.getElem_map,
    List.getD_eq_getElem _ _ h]

theorem getD_map_value (s : List Obs) (t : Nat) (ht : t < s.length)
    (hfin : ∀ o ∈ s, o.value.isFinite = true) :
    (s.map (fun o => o.value)).getD t FVal.nan =
      FVal.num ((s.getD t dObs).value.toQ) := by
  rw [List.getD_eq_getElem _ _ (by simpa using ht), List.getElem_map,
    ← List.getD_eq_getElem s dObs ht]
  apply FVal.eq_num_toQ
  apply hfin
  rw [List.getD_eq_getElem s dObs ht]
  exact List.getElem_mem _

theorem yoyVal_nan (s : List Obs) (t : Nat) (ht : t < s.length) (h12 : t < 12) :
    ((pctChange 12 (s.map (fun o => o.value))).map
      (fun v => FVal.mul v (FVal.num 100))).getD t FVal.nan = FVal.nan := by
  rw [getD_map_mul100 _ t (by rw [length_pctChange, List.length_map]; omega),
    getD_pctChange 12 _ t FVal.nan (by rw [List.length_map]; omega), if_pos h12]
  rfl

theorem yoyVal_num (s : List Obs) (t : Nat) (ht : t < s.length) (h12 : 12 ≤ t)
    (hfin : ∀ o ∈ s, o.value.isFinite = true)
    (hb : (s.getD (t - 12) dObs).value.toQ ≠ 0) :
    ((pctChange 12 (s.map (fun o => o.value))).map
      (fun v => FVal.mul v (FVal.num 100))).getD t FVal.nan =
      FVal.num ((((s.getD t dObs).value.toQ / (s.getD (t - 12) dObs).value.toQ)
        - 1) * 100) := by
  rw [getD_map_mul100 _ t (by rw [length_pctChange, List.length_map]; omega),
    getD_pctChange 12 _ t FVal.nan (by rw [List.length_map]; omega),
    if_neg (by omega), getD_map_value s t ht hfin,
    getD_map_value s (t - 12) (by omega) hfin, FVal.div_num _ _ hb]
  rfl

theorem filter_setVals_drop : ∀ (k : Nat) (pts : List Obs) (vs : List FVal),
    pts.length = vs.length →
    (∀ t, t < k → t < vs.length → vs.getD t FVal.nan = FVal.nan) →
    (∀ t, k ≤ t → t < vs.length → (vs.getD t FVal.nan).isNan = false) →
    (setVals pts vs).filter (fun o => !o.value.isNan) =
      setVals (pts.drop k) (vs.drop k)
  | 0, pts, vs, _, _, hnn => by
    rw [List.drop_zero, List.drop_zero, List.filter_eq_self]
    intro o ho
    have hv := value_mem_of_mem_setVals _ _ o ho
    obtain ⟨t, ht, hgt⟩ := List.mem_iff_getElem.mp hv
    have hval : o.value.isNan = false := by
      rw [← hgt, ← List.getD_eq_getElem vs FVal.nan ht]
      exact hnn t (Nat.zero_le t) ht
    simp [hval]
  | k + 1, [], vs, _, _, _ => by
    rw [setVals_nil, List.drop_nil, setVals_nil, List.filter_nil]
  | k + 1, _ :: _, [], hl, _, _ => by simp at hl
  | k + 1, p :: ps, v :: vs, hl, hn, hnn => by
    have hv0 : v = FVal.nan := hn 0 (by omega) (by simp)
    rw [setVals]
    rw [List.filter_cons, if_neg (by simp [hv0, FVal.isNan])]
    rw [List.drop_succ_cons, List.drop_succ_cons]
    exact filter_setVals_drop k ps vs (by simpa using hl)
      (fun t ht htl => by
        have := hn (t + 1) (by omega) (by simpa using htl)
        simpa [List.getD_cons_succ] using this)
      (fun t ht htl => by
        have := hnn (t + 1) (by omega) (by simpa using htl)
        simpa [List.getD_cons_succ] using this)

/-- C1: on a raw series with at least 13 finite points (and nonzero
lookback references, so that the claimed ratio is defined), the
year-over-year transform, after sorting ascending by timestamp, produces
a derived series of exactly length − 12 points in which the point of
output position j corresponds to sorted input position t = j + 12 and
carries the value (value[t] / value[t−12] − 1) × 100, the lookback being
purely positional; the first 12 input points are absent from the
output. -/
theorem yoy_positional (f : Frame) (hlen : 13 ≤ f.points.length)
    (hfin : ∀ o ∈ f.points, o.value.isFinite = true)
    (hden : ∀ i, i + 12 < f.points.length →
      ((sortByDate f.points).getD i dObs).value.toQ ≠ 0) :
    ∃ out, compute_transform (some f) kindYoy = some out ∧
      out.lastUpdated = f.lastUpdated ∧
      out.points.length = f.points.length - 12 ∧
      ∀ j, j + 12 < f.points.length →
        out.points.getD j dObs =
          { date := ((sortByDate f.points).getD (j + 12) dObs).date
            value := FVal.num
              ((((sortByDate f.points).getD (j + 12) dObs).value.toQ /
                ((sortByDate f.points).getD j dObs).value.toQ - 1) * 100) } := by
  have hsl : (sortByDate f.points).length = f.points.length :=
    length_sortByDate f.points
  have hfin2 : ∀ o ∈ sortByDate f.points, o.value.isFinite = true :=
    fun o ho => hfin o ((mem_sortByDate _ o).mp ho)
  have hden2 : ∀ i, i + 12 < (sortByDate f.points).length →
      ((sortByDate f.points).getD i dObs).value.toQ ≠ 0 :=
    fun i hi => hden i (by omega)
  have hnvl : ((pctChange 12 ((sortByDate f.points).map (fun o => o.value))).map
      (fun v => FVal.mul v (FVal.num 100))).length = f.points.length := by
    rw [List.length_map, length_pctChange, List.length_map, hsl]
  have hfilter : (setVals (sortByDate f.points)
      ((pctChange 12 ((sortByDate f.points).map (fun o => o.value))).map
        (fun v => FVal.mul v (FVal.num 100)))).filter (fun o => !o.value.isNan) =
      setVals ((sortByDate f.points).drop 12)
        (((pctChange 12 ((sortByDate f.points).map (fun o => o.value))).map
          (fun v => FVal.mul v (FVal.num 100))).drop 12) := by
    apply filter_setVals_drop 12
    · rw [hsl, hnvl]
    · intro t ht htl
      exact yoyVal_nan _ t (by omega) ht
    · intro t ht htl
      rw [yoyVal_num _ t (by omega) ht hfin2 (hden2 (t - 12) (by omega))]
      rfl
  refine ⟨Frame.mk (setVals ((sortByDate f.points).drop 12)
      (((pctChange 12 ((sortByDate f.points).map (fun o => o.value))).map
        (fun v => FVal.mul v (FVal.num 100))).drop 12)) f.lastUpdated,
    ?_, rfl, ?_, ?_⟩
  · rw [compute_transform_some, transformVals_yoy, hfilter]
  · show (setVals _ _).length = _
    rw [length_setVals, List.length_drop, List.length_drop, hsl, hnvl]
    omega
  · intro j hj
    show (setVals _ _).getD j dObs = _
    rw [getD_setVals _ _ j FVal.nan
        (by rw [List.length_drop, hsl]; omega)
        (by rw [List.length_drop, hnvl]; omega),
      getD_drop _ 12 j dObs (by omega),
      getD_drop _ 12 j FVal.nan (by rw [hnvl]; omega)]
    have h12j : 12 + j = j + 12 := by omega
    have hb : ((sortByDate f.points).getD (j + 12 - 12) dObs).value.toQ ≠ 0 := by
      have hidx : j + 12 - 12 = j := by omega
      rw [hidx]
      exact hden2 j (by omega)
    rw [h12j, yoyVal_num _ (j + 12) (by omega) (by omega) hfin2 hb]
    have hidx : j + 12 - 12 = j := by omega
    rw [hidx]

/-- Witness for C1 at the 13-sample example of the spec: the last value 110
against 100 from 12 samples earlier gives (110/100 − 1) × 100. -/
theorem yoy_positional_witness :
    13 ≤ w1Frame.points.length ∧
      (∃ out, compute_transform (some w1Frame) kindYoy = some out ∧
        out.lastUpdated = w1Frame.lastUpdated ∧
        out.points.length = w1Frame.points.length - 12 ∧
        ∀ j, j + 12 < w1Frame.points.length →
          out.points.getD j dObs =
            { date := ((sortByDate w1Frame.points).getD (j + 12) dObs).date
              value := FVal.num
                ((((sortByDate w1Frame.points).getD (j + 12) dObs).value.toQ /
                  ((sortByDate w1Frame.points).getD j dObs).value.toQ - 1) * 100) }) :=
  ⟨by decide, yoy_positional w1Frame (by decide) (by decide)
    (by intro i hi; have hi0 : i = 0 := by simp [w1Frame] at hi; omega
        subst hi0; decide)⟩

/-- C4: the percent-change-over-N-periods helper returns None
("unavailable") whenever the series has at most N points, and on at least
N + 1 points (with the N-periods-back reference nonzero, so Python float
division does not raise) returns (value[last] / value[last−N] − 1) ×
100. -/
theorem pct_change_boundary (f : Frame) (N : Nat) (_hN : 1 ≤ N) :
    (f.points.length ≤ N → pct_change_latest (some f) N = Except.ok none) ∧
    (N + 1 ≤ f.points.length →
      (f.points.map (fun o => o.value)).getD (f.points.length - 1 - N) FVal.nan ≠
        FVal.num 0 →
      pct_change_latest (some f) N = Except.ok (some (FVal.mul (FVal.sub
        (FVal.div
          ((f.points.map (fun o => o.value)).getD (f.points.length - 1) FVal.nan)
          ((f.points.map (fun o => o.value)).getD (f.points.length - 1 - N) FVal.nan))
        (FVal.num 1)) (FVal.num 100)))) := by
  constructor
  · intro h
    simp only [pct_change_latest]
    rw [if_pos h]
  · intro h hb
    simp only [pct_change_latest]
    rw [if_neg (by omega)]
    have h1 : ((f.points.map (fun o => o.value)).drop
          (f.points.length - (N + 1))).getD N FVal.nan =
        (f.points.map (fun o => o.value)).getD (f.points.length - 1) FVal.nan := by
      rw [getD_drop _ _ _ _ (by rw [List.length_map]; omega)]
      congr 1
      omega
    have h0 : ((f.points.map (fun o => o.value)).drop
          (f.points.length - (N + 1))).getD 0 FVal.nan =
        (f.points.map (fun o => o.value)).getD (f.points.length - 1 - N) FVal.nan := by
      rw [getD_drop _ _ _ _ (by rw [List.length_map]; omega)]
      congr 1
      omega
    rw [h1, h0]
    simp only [pydiv]
    rw [if_neg hb]

/-- Witness for C4 with N = 1: on a two-point series a lookback of 2 is
unavailable and a lookback of 1 returns the computed change. -/
theorem pct_change_boundary_witness :
    pct_change_latest (some w4Frame) 2 = Except.ok none ∧
      pct_change_latest (some w4Frame) 1 =
        Except.ok (some (FVal.mul (FVal.sub (FVal.div
          ((w4Frame.points.map (fun o => o.value)).getD
            (w4Frame.points.length - 1) FVal.nan)
          ((w4Frame.points.map (fun o => o.value)).getD
            (w4Frame.points.length - 1 - 1) FVal.nan))
          (FVal.num 1)) (FVal.num 100))) :=
  ⟨(pct_change_boundary w4Frame 2 (by decide)).1 (by decide),
    (pct_change_boundary w4Frame 1 (by decide)).2 (by decide) (by decide)⟩

theorem parse_length : ∀ (obs : List FredRec),
    (obs.filterMap (fun r => r.value.map
      (fun v => ({ date := r.date, value := FVal.num v } : Obs)))).length =
      (obs.filter (fun r => r.value.isSome)).length
  | [] => rfl
  | r :: rs => by
    cases hv : r.value with
    | none => simp [List.filterMap_cons, List.filter_cons, hv, parse_length rs]
    | some q => simp [List.filterMap_cons, List.filter_cons, hv, parse_length rs]

/-- C8: on a successful (status 200, nonempty observations) response,
records whose value failed to parse as a number are dropped individually
and the fetch still succeeds: the resulting raw series consists of
exactly the parseable records, in order. -/
theorem fetch_drops_unparsable (observations : List FredRec) (meta : String)
    (hne : observations ≠ []) :
    ∃ fr, fred_get_series 200 observations meta = some fr ∧
      fr.lastUpdated = meta ∧
      fr.points = observations.filterMap (fun r => r.value.map
        (fun v => ({ date := r.date, value := FVal.num v } : Obs))) ∧
      fr.points.length = (observations.filter (fun r => r.value.isSome)).length := by
  refine ⟨Frame.mk (observations.filterMap (fun r => r.value.map
      (fun v => ({ date := r.date, value := FVal.num v } : Obs)))) meta,
    ?_, rfl, rfl, parse_length observations⟩
  unfold fred_get_series
  rw [if_neg (by omega), if_neg hne]

/-- Witness for C8: a ten-record response with one non-numeric value
yields a raw series of exactly nine points. -/
theorem fetch_drops_unparsable_witness :
    (w8Obs.filter (fun r => r.value.isSome)).length = 9 ∧
      (∃ fr, fred_get_series 200 w8Obs w8Meta = some fr ∧
        fr.lastUpdated = w8Meta ∧
        fr.points = w8Obs.filterMap (fun r => r.value.map
          (fun v => ({ date := r.date, value := FVal.num v } : Obs))) ∧
        fr.points.length = (w8Obs.filter (fun r => r.value.isSome)).length) :=
  ⟨by decide, fetch_drops_unparsable w8Obs w8Meta (by decide)⟩

/-- C9: with the TTL cache modelled from the spec (the `st.cache_data`
machinery is library code, not repository code), a first fetch for a key
issues a network request; a second fetch for the same key strictly within
the TTL window returns the cached result without a network request; a
fetch at or after TTL expiry issues a new request; and a fetch after the
explicit clear-cache operation issues a new request. -/
theorem cache_ttl (k : String × String) (t1 t2 : Nat) (r1 r2 : Option Frame) :
    (cachedFetch [] k t1 r1).networkCall = true ∧
    (t2 < t1 + cacheTTL →
      cachedFetch (cachedFetch [] k t1 r1).cache k t2 r2 =
        { result := r1
          cache := (cachedFetch [] k t1 r1).cache
          networkCall := false }) ∧
    (t1 + cacheTTL ≤ t2 →
      (cachedFetch (cachedFetch [] k t1 r1).cache k t2 r2).networkCall = true) ∧
    (cachedFetch (clearCache ((cachedFetch [] k t1 r1).cache)) k t2 r2).networkCall
      = true := by
  have hfirst : cachedFetch [] k t1 r1 =
      { result := r1
        cache := [{ key := k, result := r1, insertedAt := t1 }]
        networkCall := true } := rfl
  have hsecond : ∀ (u : Nat) (r : Option Frame),
      cachedFetch [{ key := k, result := r1, insertedAt := t1 }] k u r =
        if u < t1 + cacheTTL then
          { result := r1
            cache := [{ key := k, result := r1, insertedAt := t1 }]
            networkCall := false }
        else
          { result := r
            cache := { key := k, result := r, insertedAt := u } ::
              [{ key := k, result := r1, insertedAt := t1 }]
            networkCall := true } := by
    intro u r
    simp [cachedFetch, lookupCache, List.find?]
  refine ⟨by rw [hfirst], ?_, ?_, rfl⟩
  · intro h
    rw [hfirst]
    show cachedFetch [{ key := k, result := r1, insertedAt := t1 }] k t2 r2 = _
    rw [hsecond t2 r2, if_pos h]
  · intro h
    rw [hfirst]
    show (cachedFetch [{ key := k, result := r1, insertedAt := t1 }] k t2 r2).networkCall
      = true
    rw [hsecond t2 r2, if_neg (by omega)]

/-- Witness for C9 at a concrete key and concrete times 0, 59 and 60
around the 60-second TTL. -/
theorem cache_ttl_witness :
    (cachedFetch [] w9Key 0 (some w10Frame)).networkCall = true ∧
      cachedFetch (cachedFetch [] w9Key 0 (some w10Frame)).cache w9Key 59 none =
        { result := some w10Frame
          cache := (cachedFetch [] w9Key 0 (some w10Frame)).cache
          networkCall := false } ∧
      (cachedFetch (cachedFetch [] w9Key 0 (some w10Frame)).cache w9Key 60
        none).networkCall = true ∧
      (cachedFetch (clearCache ((cachedFetch [] w9Key 0 (some w10Frame)).cache))
        w9Key 60 none).networkCall = true :=
  ⟨(cache_ttl w9Key 0 59 (some w10Frame) none).1,
    (cache_ttl w9Key 0 59 (some w10Frame) none).2.1 (by decide),
    (cache_ttl w9Key 0 60 (some w10Frame) none).2.2.1 (by decide),
    (cache_ttl w9Key 0 60 (some w10Frame) none).2.2.2⟩

end Econ101
